import Mathlib

/-!
Verification development for the ProScrape crawl-and-extraction engine
(`src/scrape.py`, class `ScrapingWorker`).

The Python code is shallowly embedded as executable Lean definitions.
Third-party collaborators (the `requests` HTTP client, DNS resolution via
`socket.gethostbyname`, `ipaddress` classification, `urllib` URL algebra,
`urllib.robotparser`, the `re` regex module and `json` parsing) are modelled
as explicit environment parameters, while all code of `ScrapingWorker`
itself is transcribed concretely.  The BeautifulSoup document tree is
modelled by the inductive `HNode`, with `find` / `find_all` / `select`
implemented as document-order descendant searches, and CSS selectors
represented by the small AST `CssSel` covering exactly the selector forms
the source uses.
-/

namespace ProScrape

/-! ## String helpers (character-level models of the Python string ops used) -/

/-- Python `str.strip()` / BeautifulSoup `strip=True`: drop whitespace at both ends. -/
def stripChars (s : String) : String :=
  String.mk (((s.toList.dropWhile Char.isWhitespace).reverse.dropWhile Char.isWhitespace).reverse)

/-- Python `str.lower()`. -/
def lowerStr (s : String) : String := String.mk (s.toList.map Char.toLower)

/-- Python slice `s[:n]` (by characters). -/
def takeStr (s : String) (n : Nat) : String := String.mk (s.toList.take n)

/-- Auxiliary: is `pat` an infix of `l`? -/
def infixChars (pat : List Char) : List Char → Bool
  | [] => pat.isEmpty
  | c :: rest => pat.isPrefixOf (c :: rest) || infixChars pat rest

/-- Python `sub in s` (substring containment). -/
def containsSub (s sub : String) : Bool := infixChars sub.toList s.toList

/-- Core of Python `str.replace`: replace every occurrence of `pat` by `rep`. -/
def replaceCore (pat rep : List Char) : List Char → List Char
  | [] => []
  | c :: rest =>
    if pat ≠ [] ∧ pat.isPrefixOf (c :: rest) then
      rep ++ replaceCore pat rep ((c :: rest).drop pat.length)
    else
      c :: replaceCore pat rep rest
termination_by l => l.length
decreasing_by
  · simp only [List.length_drop]
    have hp : pat.length ≥ 1 := by
      rcases pat with _ | ⟨p, ps⟩
      · simp at *
      · simp [Nat.succ_le_succ]
    simp [List.length_cons]
    omega
  · simp [List.length_cons]

/-- Python `str.replace(pat, rep)` (all occurrences). -/
def replaceStr (s pat rep : String) : String :=
  String.mk (replaceCore pat.toList rep.toList s.toList)

/-- Split on runs of whitespace (how an HTML `class` attribute is tokenised). -/
def splitWsAux : List Char → List Char → List String
  | [], acc => if acc = [] then [] else [String.mk acc.reverse]
  | c :: rest, acc =>
    if c.isWhitespace then
      (if acc = [] then splitWsAux rest [] else String.mk acc.reverse :: splitWsAux rest [])
    else splitWsAux rest (c :: acc)

/-- Whitespace tokenisation of a `class` attribute value. -/
def splitWs (s : String) : List String := splitWsAux s.toList []

/-- Join a list of strings with no separator (Python `''.join`). -/
def joinStr (l : List String) : String := l.foldl (· ++ ·) ""

/-- Join a list of strings with a single-space separator (Python `' '.join`). -/
def joinSep : List String → String
  | [] => ""
  | x :: xs => xs.foldl (fun a b => a ++ " " ++ b) x

/-- Python truthiness of an optional string (`None` and `''` are falsy). -/
def strTruthy : Option String → Bool
  | some s => s ≠ ""
  | none => false

/-- Python `a or b` on optional strings: first truthy operand, else the last. -/
def pyOr (a b : Option String) : Option String :=
  if strTruthy a then a else b

/-! ## Records (Python dicts with insertion order) -/

/-- A record field value: scalar string, list of strings, a list of parsed
structured-data blobs (JSON-LD case), or Python `None`. -/
inductive Value where
  | s (v : String)
  | strList (vs : List String)
  | blobs (vs : List String)
  | nullV
deriving DecidableEq

/-- A record: an insertion-ordered string-keyed dictionary. -/
abbrev Record := List (String × Value)

/-- Python dict assignment `d[k] = v`: overwrite in place (keeping the key's
original position) or append at the end. -/
def dictInsert (r : Record) (k : String) (v : Value) : Record :=
  if r.any (fun kv => kv.1 = k) then
    r.map (fun kv => if kv.1 = k then (k, v) else kv)
  else r ++ [(k, v)]

/-- Python `k in d`. -/
def hasKey (r : Record) (k : String) : Bool := r.any (fun kv => kv.1 = k)

/-- Python truthiness of a record field value. -/
def valueTruthy : Value → Bool
  | .s v => v ≠ ""
  | .strList vs => vs ≠ []
  | .blobs vs => vs ≠ []
  | .nullV => false

/-! ## The document tree (BeautifulSoup model) -/

/-- A parsed HTML node: an element with tag name, attributes and children,
or a text node. -/
inductive HNode where
  | text (s : String)
  | elem (tag : String) (attrs : List (String × String)) (children : List HNode)

/- All text-node contents below (and at) a node, in document order. -/
mutual
def HNode.textNodes : HNode → List String
  | .text s => [s]
  | .elem _ _ cs => HNode.textNodesL cs
def HNode.textNodesL : List HNode → List String
  | [] => []
  | c :: cs => HNode.textNodes c ++ HNode.textNodesL cs
end

/-- BeautifulSoup `get_text()` (no separator, no stripping). -/
def getTextRaw (n : HNode) : String := joinStr n.textNodes

/-- BeautifulSoup `get_text(strip=True)`: strip each string, drop empties, join. -/
def getTextStrip (n : HNode) : String :=
  joinStr ((n.textNodes.map stripChars).filter (· ≠ ""))

/-- BeautifulSoup `get_text(separator=' ', strip=True)`. -/
def getTextSep (n : HNode) : String :=
  joinSep ((n.textNodes.map stripChars).filter (· ≠ ""))

/-- Render an attribute list as HTML source text. -/
def renderAttrs (attrs : List (String × String)) : String :=
  attrs.foldl (fun a kv => a ++ " " ++ kv.1 ++ "=\x22" ++ kv.2 ++ "\x22") ""

/- Python `str(soup)`: serialize the tree back to markup. -/
mutual
def HNode.render : HNode → String
  | .text s => s
  | .elem t attrs cs =>
    "<" ++ t ++ renderAttrs attrs ++ ">" ++ HNode.renderL cs ++ "</" ++ t ++ ">"
def HNode.renderL : List HNode → String
  | [] => ""
  | c :: cs => HNode.render c ++ HNode.renderL cs
end

/- All proper descendants of a node paired with their ancestor chains
(nearest first; the chain is cut off at the node `select` was called on),
in document order.  This is the search space of `find` / `find_all` /
`select` on that node. -/
mutual
def descPairs (ancs : List HNode) : HNode → List (HNode × List HNode)
  | .text s => [(.text s, ancs)]
  | .elem t a cs => (.elem t a cs, ancs) :: descPairsL (.elem t a cs :: ancs) cs
def descPairsL (ancs : List HNode) : List HNode → List (HNode × List HNode)
  | [] => []
  | c :: cs => descPairs ancs c ++ descPairsL ancs cs
end

/-- Descendants of a node with ancestor chains (the node itself excluded,
as in BeautifulSoup searches). -/
def descWithAnc (root : HNode) : List (HNode × List HNode) :=
  match root with
  | .elem t a cs => descPairsL [.elem t a cs] cs
  | .text _ => []

/-- Descendants of a node in document order. -/
def descendants (root : HNode) : List HNode := (descWithAnc root).map Prod.fst

/-- The attribute list of a node (empty for text nodes). -/
def attrsOf : HNode → List (String × String)
  | .elem _ a _ => a
  | .text _ => []

/-- The tag name of a node. -/
def tagOf : HNode → Option String
  | .elem t _ _ => some t
  | .text _ => none

/-- BeautifulSoup `tag.get(attr)`. -/
def attrGet (n : HNode) (k : String) : Option String := (attrsOf n).lookup k

/-- BeautifulSoup `tag.get('class', [])`: the whitespace-split class list. -/
def classListOf (n : HNode) : List String := splitWs ((attrGet n "class").getD "")

/-- BeautifulSoup `tag.string`: the unique text payload, if the node has
exactly one child chain down to a single text node. -/
def nodeString : HNode → Option String
  | .text s => some s
  | .elem _ _ [c] => nodeString c
  | .elem _ _ _ => none

/-- `find_all` with a tag-name list: descendants whose tag is in the list. -/
def findAllTags (root : HNode) (tags : List String) : List HNode :=
  (descendants root).filter (fun n =>
    match tagOf n with
    | some t => t ∈ tags
    | none => false)

/-- `find(tag)`: first matching descendant in document order. -/
def findTag (root : HNode) (t : String) : Option HNode := (findAllTags root [t]).head?

/-- `find_all(tag, attr=True)`: matching descendants that carry the attribute. -/
def findAllTagWithAttr (root : HNode) (t a : String) : List HNode :=
  (findAllTags root [t]).filter (fun n => (attrGet n a).isSome)

/-- `find(tag, attr=True)`. -/
def findTagWithAttr (root : HNode) (t a : String) : Option HNode :=
  (findAllTagWithAttr root t a).head?

/-- `find_all(tag, attr=value)` (exact attribute value). -/
def findAllTagAttrEq (root : HNode) (t a v : String) : List HNode :=
  (findAllTags root [t]).filter (fun n => attrGet n a = some v)

/-- `find(tag, attrs={a: v})`. -/
def findTagAttrEq (root : HNode) (t a v : String) : Option HNode :=
  (findAllTagAttrEq root t a v).head?

/-- `find_all(tag, class_=True)`: tag-matching descendants with a class attribute. -/
def findAllWithClassAttr (root : HNode) (t : String) : List HNode :=
  (findAllTags root [t]).filter (fun n => (attrGet n "class").isSome)

/-! ## CSS selectors

An AST covering exactly the selector forms occurring in `scrape.py`:
simple compound selectors (tag name, `.class` requirements, `[attr]`,
`[attr="v"]`, `[attr*="v"]`), one-level descendant combinators
(`h3 a`, `div.image_container img`) and the comma union
(`[class*="rating"], [class*="star"]`). -/

/-- One compound selector: every listed condition must hold on the element. -/
structure SimpleSel where
  tag : Option String
  classes : List String
  attrEquals : List (String × String)
  attrExists : List String
  attrContains : List (String × String)
deriving DecidableEq

/-- A CSS selector as used in the source. -/
inductive CssSel where
  | simple (s : SimpleSel)
  | descend (anc child : SimpleSel)
  | union2 (a b : CssSel)
deriving DecidableEq

/-- Does the compound selector match this node? -/
def simpleMatches (s : SimpleSel) (n : HNode) : Bool :=
  match n with
  | .text _ => false
  | .elem t attrs _ =>
    (match s.tag with
     | none => true
     | some tg => tg = t) &&
    s.classes.all (fun c => c ∈ splitWs (((attrs.lookup "class")).getD "")) &&
    s.attrEquals.all (fun av => attrs.lookup av.1 = some av.2) &&
    s.attrExists.all (fun a => (attrs.lookup a).isSome) &&
    s.attrContains.all (fun av =>
      match attrs.lookup av.1 with
      | some w => containsSub w av.2
      | none => false)

/-- Does the selector match a node with the given ancestor chain? -/
def cssMatches : CssSel → HNode → List HNode → Bool
  | .simple s, n, _ => simpleMatches s n
  | .descend a c, n, ancs => simpleMatches c n && ancs.any (simpleMatches a)
  | .union2 x y, n, ancs => cssMatches x n ancs || cssMatches y n ancs

/-- BeautifulSoup `root.select(sel)`: matching descendants in document order. -/
def select (root : HNode) (sel : CssSel) : List HNode :=
  ((descWithAnc root).filter (fun p => cssMatches sel p.1 p.2)).map Prod.fst

/-- BeautifulSoup `root.select_one(sel)`. -/
def selectOne (root : HNode) (sel : CssSel) : Option HNode := (select root sel).head?

/-- Shorthand: bare tag selector (`'p'`). -/
def tagSel (t : String) : CssSel := .simple ⟨some t, [], [], [], []⟩

/-- Shorthand: `'tag.class'`. -/
def tagClass (t c : String) : CssSel := .simple ⟨some t, [c], [], [], []⟩

/-- Shorthand: `'tag.c1.c2'`. -/
def tagClass2 (t c1 c2 : String) : CssSel := .simple ⟨some t, [c1, c2], [], [], []⟩

/-- Shorthand: `'.class'`. -/
def classSel (c : String) : CssSel := .simple ⟨none, [c], [], [], []⟩

/-- Shorthand: `'tag[attr]'`. -/
def tagAttrExists (t a : String) : CssSel := .simple ⟨some t, [], [], [a], []⟩

/-- Shorthand: `'[attr]'`. -/
def attrExistsSel (a : String) : CssSel := .simple ⟨none, [], [], [a], []⟩

/-- Shorthand: `'tag[attr*="v"]'`. -/
def tagAttrContains (t a v : String) : CssSel := .simple ⟨some t, [], [], [], [(a, v)]⟩

/-- Shorthand: `'[attr*="v"]'`. -/
def attrContainsSel (a v : String) : CssSel := .simple ⟨none, [], [], [], [(a, v)]⟩

/-- Shorthand: `'tag[attr="v"]'`. -/
def tagAttrEqSel (t a v : String) : CssSel := .simple ⟨some t, [], [(a, v)], [], []⟩

/-! ## Environment for third-party collaborators -/

/-- The Python `re` module as an oracle: `findall`, `search` (as a Boolean)
and case-insensitive `search` (`re.IGNORECASE`), each taking the literal
pattern string from the source as its first argument. -/
structure Re where
  findall : String → String → List String
  searchB : String → String → Bool
  searchCI : String → String → Bool

/-- Classification of a resolved IP address (`ipaddress` module). -/
structure IpClass where
  isPrivate : Bool
  isLoopback : Bool
  isLinkLocal : Bool
deriving DecidableEq

/-- A network event observable from the worker: the robots-policy retrieval
performed by `RobotFileParser.read()`, or a page fetch performed by
`requests.get`. -/
inductive NetEvent where
  | robotsFetch (url : String)
  | pageFetch (url : String)
deriving DecidableEq

/-- Environment bundling every external collaborator `scrape_url` touches:
URL algebra (`urllib.parse`), DNS + IP classification, the robots policy
verdict, the HTTP fetch + parse step, regexes and JSON parsing. -/
structure ScrapeEnv where
  scheme : String → String
  netloc : String → String
  hostname : String → Option String
  resolveIp : String → Option IpClass
  canFetchRobots : String → String → Option Bool
  fetch : String → Option HNode
  urljoin : String → String → String
  reEnv : Re
  jsonParse : String → Option String

/-- `find_all(tags, class_=re.compile(pat))`: tag-matching descendants one of
whose classes matches the regex (BeautifulSoup matches multi-valued
attributes value by value). -/
def findAllClassRe (re : Re) (tags : List String) (pat : String) (root : HNode) : List HNode :=
  (findAllTags root tags).filter (fun n => (classListOf n).any (fun c => re.searchB pat c))

/-- `find('a', string=re.compile(pat, re.IGNORECASE))`. -/
def findAnchorStringCI (re : Re) (pat : String) (root : HNode) : Option HNode :=
  ((findAllTags root ["a"]).filter (fun n =>
    match nodeString n with
    | some s => re.searchCI pat s
    | none => false)).head?

/-! ## Table extraction (`ScrapingWorker.extract_table_data`, lines 256-288) -/

/-- The header texts of a table: cells of a `thead` element if present,
else cells of the first `tr` (lines 260-269). -/
def tableHeaders (table : HNode) : List String :=
  match findTag table "thead" with
  | some headerRow => (findAllTags headerRow ["th", "td"]).map getTextStrip
  | none =>
    match findTag table "tr" with
    | some firstRow => (findAllTags firstRow ["th", "td"]).map getTextStrip
    | none => []

/-- The rows scanned for data: `(table.find('tbody') or table).find_all('tr')`
(lines 275-276). -/
def tableRows (table : HNode) : List HNode :=
  match findTag table "tbody" with
  | some tb => findAllTags tb ["tr"]
  | none => findAllTags table ["tr"]

/-- The cells of a row: `row.find_all(['td', 'th'])` (line 279). -/
def rowCells (row : HNode) : List HNode := findAllTags row ["td", "th"]

/-- The header-keyed dict built for one row (lines 281-284): for each header
index `i`, if `i < len(cells)` assign `row_data[header] = cells[i]` text;
duplicate headers overwrite the earlier entry (Python dict semantics). -/
def buildRowRecord (headers : List String) (cells : List HNode) : Record :=
  headers.enum.foldl (fun d ih =>
    match cells.get? ih.1 with
    | some c => dictInsert d ih.2 (.s (getTextStrip c))
    | none => d) []

/-- `ScrapingWorker.extract_table_data`: headers, then one record per row
whose cell count equals the header count and whose row dict is non-empty
with at least one truthy value (lines 278-286). -/
def extract_table_data (table : HNode) : List Record :=
  let headers := tableHeaders table
  if headers = [] then []
  else
    (tableRows table).foldl (fun acc row =>
      let cells := rowCells row
      if cells.length = headers.length then
        let rowData := buildRowRecord headers cells
        if rowData ≠ [] ∧ rowData.any (fun kv => valueTruthy kv.2) then acc ++ [rowData]
        else acc
      else acc) []

/-! ## Product-listing extraction (`ScrapingWorker.extract_product_listings`,
lines 290-488) -/

/-- `'article.product_pod'`. -/
def selProductPod : CssSel := tagClass "article" "product_pod"

/-- `'h3 a'`. -/
def selH3A : CssSel := .descend ⟨some "h3", [], [], [], []⟩ ⟨some "a", [], [], [], []⟩

/-- `'p.price_color'`. -/
def selPriceColor : CssSel := tagClass "p" "price_color"

/-- `'p.star-rating'`. -/
def selStarRating : CssSel := tagClass "p" "star-rating"

/-- `'p.instock.availability'`. -/
def selInstockAvail : CssSel := tagClass2 "p" "instock" "availability"

/-- `'div.image_container img'`. -/
def selImageContainerImg : CssSel :=
  .descend ⟨some "div", ["image_container"], [], [], []⟩ ⟨some "img", [], [], [], []⟩

/-- The dedicated books.toscrape.com path (lines 296-337): one record per
`article.product_pod`, with title, price, star rating, availability, image
and link pulled by site-specific selectors; empty records are dropped. -/
def booksRecords (soup : HNode) : List Record :=
  (select soup selProductPod).filterMap (fun product =>
    let data : Record := []
    let data :=
      match selectOne product selH3A with
      | some titleElem =>
        dictInsert data "title"
          (.s ((pyOr (attrGet titleElem "title") (some (getTextStrip titleElem))).getD ""))
      | none => data
    let data :=
      match selectOne product selPriceColor with
      | some priceElem => dictInsert data "price" (.s (getTextStrip priceElem))
      | none => data
    let data :=
      match selectOne product selStarRating with
      | some ratingElem =>
        match (classListOf ratingElem).find? (fun cls =>
            cls ∈ ["One", "Two", "Three", "Four", "Five"]) with
        | some cls => dictInsert data "rating" (.s cls)
        | none => data
      | none => data
    let data :=
      match selectOne product selInstockAvail with
      | some stockElem =>
        dictInsert data "availability"
          (.s (stripChars (replaceStr (getTextStrip stockElem) "\n" " ")))
      | none => data
    let data :=
      match selectOne product selImageContainerImg with
      | some img => dictInsert data "image" (.s ((attrGet img "src").getD ""))
      | none => data
    let data :=
      match selectOne product selH3A with
      | some link => dictInsert data "link" (.s ((attrGet link "href").getD ""))
      | none => data
    if data ≠ [] then some data else none)

/-- The ordered `product_selectors` list (lines 343-352). -/
def productSelectors : List CssSel :=
  [ tagClass "article" "product_pod",
    tagClass "div" "product", tagClass "article" "product", tagClass "li" "product",
    tagClass "div" "product-item", tagClass "div" "product-card",
    tagClass "div" "item", tagClass "article" "item", tagClass "li" "item",
    tagClass "div" "col-product", tagClass "div" "grid-item",
    tagAttrExists "article" "data-product", tagAttrExists "div" "data-product-id",
    tagAttrContains "li" "class" "product", tagAttrContains "div" "class" "product",
    tagAttrContains "article" "class" "product", tagClass2 "div" "card" "product" ]

/-- First selector in the list whose match set satisfies the predicate;
returns `[]` when none does. -/
def firstSelWith (soup : HNode) (p : List HNode → Bool) : List CssSel → List HNode
  | [] => []
  | s :: rest =>
    let found := select soup s
    if p found then found else firstSelWith soup p rest

/-- Candidate product containers (lines 354-370): first selector with more
than one match, else all `article`s when more than two exist, else `li`
elements carrying a class whose stripped text is longer than 30 chars,
capped at 50. -/
def genericCandidates (soup : HNode) : List HNode :=
  let products := firstSelWith soup (fun f => f.length > 1) productSelectors
  if ¬ products.isEmpty then products
  else
    let articles := findAllTags soup ["article"]
    if articles.length > 2 then articles
    else
      (((findAllWithClassAttr soup "li").filter
        (fun li => (getTextStrip li).length > 30)).take 50)

/-- `price_selectors` (line 400). -/
def priceSelectors : List CssSel :=
  [ classSel "price", classSel "price_color", classSel "cost",
    attrContainsSel "class" "price", attrExistsSel "data-price" ]

/-- The ordered price regex pattern strings (lines 412-418), passed verbatim
to the regex oracle. -/
def pricePatterns : List String :=
  [ "[\\$£€]\\s*[\\d,]+\\.?\\d*",
    "USD\\s*[\\d,]+\\.?\\d*",
    "Rs\\.?\\s*[\\d,]+\\.?\\d*",
    "Price:\\s*([\\d,]+\\.?\\d*)",
    "\\b\\d+\\.\\d{2}\\b" ]

/-- `desc_selectors` (line 426). -/
def descSelectors : List CssSel :=
  [ classSel "description", classSel "summary", classSel "excerpt", tagSel "p" ]

/-- `'[class*="rating"], [class*="star"]'` (line 446). -/
def selRatingOrStar : CssSel :=
  .union2 (attrContainsSel "class" "rating") (attrContainsSel "class" "star")

/-- `stock_selectors` (line 469). -/
def stockSelectors : List CssSel :=
  [ classSel "availability", classSel "stock", classSel "instock",
    attrContainsSel "class" "stock" ]

/-- The title strategies (lines 376-394): first heading by tag priority
`h1..h5`, else an anchor with a `title` attribute, else the first anchor's
text; Python falls through whenever the running value is falsy. -/
def findFirstByTagOrder (product : HNode) : List String → Option HNode
  | [] => none
  | t :: ts =>
    match findTag product t with
    | some e => some e
    | none => findFirstByTagOrder product ts

/-- The price selector loop (lines 400-407): break on the first selector
whose matched element has non-empty stripped text. -/
def priceFromSelectors (product : HNode) : List CssSel → Option String
  | [] => none
  | s :: rest =>
    match selectOne product s with
    | some priceElem =>
      let t := getTextStrip priceElem
      if t ≠ "" then some t else priceFromSelectors product rest
    | none => priceFromSelectors product rest

/-- The regex price fallback (lines 410-423): first pattern with a non-empty
`findall`, taking its first match. -/
def firstFindall (re : Re) (text : String) : List String → Option String
  | [] => none
  | p :: ps =>
    match re.findall p text with
    | [] => firstFindall re text ps
    | m :: _ => some m

/-- The description selector loop (lines 426-433): break on the first
selector whose matched element has stripped text longer than 20 chars. -/
def descFromSelectors (product : HNode) : List CssSel → Option String
  | [] => none
  | s :: rest =>
    match selectOne product s with
    | some descElem =>
      let t := getTextStrip descElem
      if t ≠ "" ∧ t.length > 20 then some (takeStr t 200) else descFromSelectors product rest
    | none => descFromSelectors product rest

/-- The availability selector loop (lines 469-474): break unconditionally on
the first selector with a match. -/
def availFromSelectors (product : HNode) : List CssSel → Option String
  | [] => none
  | s :: rest =>
    match selectOne product s with
    | some stockElem => some (getTextStrip stockElem)
    | none => availFromSelectors product rest

/-- One pass of the rating-from-class-names loop body (lines 450-460):
an if/elif chain on one class string. -/
def ratingFromClass (d : Record) (cls : String) : Record :=
  if containsSub (lowerStr cls) "five" || containsSub cls "5" then
    dictInsert d "rating" (.s "5 stars")
  else if containsSub (lowerStr cls) "four" || containsSub cls "4" then
    dictInsert d "rating" (.s "4 stars")
  else if containsSub (lowerStr cls) "three" || containsSub cls "3" then
    dictInsert d "rating" (.s "3 stars")
  else if containsSub (lowerStr cls) "two" || containsSub cls "2" then
    dictInsert d "rating" (.s "2 stars")
  else if containsSub (lowerStr cls) "one" || containsSub cls "1" then
    dictInsert d "rating" (.s "1 star")
  else d

/-- The per-candidate record of the generic product path (lines 372-486). -/
def genericProductRecord (re : Re) (product : HNode) : Record :=
  -- title strategies 1-3, then `if title and len(title) > 3`
  let title : Option String :=
    (findFirstByTagOrder product ["h1", "h2", "h3", "h4", "h5"]).map getTextStrip
  let title : Option String :=
    if strTruthy title then title
    else
      match findTagWithAttr product "a" "title" with
      | some link => attrGet link "title"
      | none => title
  let title : Option String :=
    if strTruthy title then title
    else
      match findTag product "a" with
      | some link => some (getTextStrip link)
      | none => title
  let data : Record :=
    match title with
    | some t => if t ≠ "" ∧ t.length > 3 then [("title", Value.s t)] else []
    | none => []
  -- price: selector loop, else regex fallback on the raw text
  let data :=
    match priceFromSelectors product priceSelectors with
    | some p => dictInsert data "price" (.s p)
    | none =>
      match firstFindall re (getTextRaw product) pricePatterns with
      | some p => dictInsert data "price" (.s p)
      | none => data
  -- description
  let data :=
    match descFromSelectors product descSelectors with
    | some d => dictInsert data "description" (.s d)
    | none => data
  -- image: `img.get('src') or img.get('data-src') or img.get('data-lazy-src')`
  let data :=
    match findTag product "img" with
    | some img =>
      match pyOr (pyOr (attrGet img "src") (attrGet img "data-src"))
          (attrGet img "data-lazy-src") with
      | some v => dictInsert data "image" (.s v)
      | none => dictInsert data "image" .nullV
    | none => data
  -- link
  let data :=
    match findTagWithAttr product "a" "href" with
    | some link => dictInsert data "link" (.s ((attrGet link "href").getD ""))
    | none => data
  -- rating: class-name chain over all classes, then text fallback
  let data :=
    match selectOne product selRatingOrStar with
    | some ratingElem =>
      let data := (classListOf ratingElem).foldl ratingFromClass data
      if ¬ hasKey data "rating" then
        let rt := getTextStrip ratingElem
        if rt ≠ "" then dictInsert data "rating" (.s rt) else data
      else data
    | none => data
  -- availability: selector loop, else keyword scan of the lowercased raw text
  let data :=
    match availFromSelectors product stockSelectors with
    | some a => dictInsert data "availability" (.s a)
    | none =>
      let productText := lowerStr (getTextRaw product)
      if containsSub productText "in stock" || containsSub productText "available" then
        dictInsert data "availability" (.s "In Stock")
      else if containsSub productText "out of stock" || containsSub productText "unavailable" then
        dictInsert data "availability" (.s "Out of Stock")
      else data
  data

/-- The generic container-pattern chain (lines 342-488): candidates capped at
100; keep a record only if it has a `title` or a `price`. -/
def genericProducts (re : Re) (soup : HNode) : List Record :=
  ((genericCandidates soup).take 100).filterMap (fun product =>
    let data := genericProductRecord re product
    if data ≠ [] ∧ (hasKey data "title" ∨ hasKey data "price") then some data else none)

/-- `ScrapingWorker.extract_product_listings`: the dedicated books.toscrape
path runs first whenever the serialized markup contains `'books.toscrape'`
and short-circuits if it produced any record; otherwise the generic chain
runs (lines 294-341 then 342-488). -/
def extract_product_listings (re : Re) (soup : HNode) : List Record :=
  if containsSub (HNode.render soup) "books.toscrape" then
    let results := booksRecords soup
    if results ≠ [] then results else genericProducts re soup
  else genericProducts re soup

/-! ## Article/blog extraction (`ScrapingWorker.extract_article_listings`,
lines 490-561) -/

/-- `article_selectors` (lines 495-499). -/
def articleSelectors : List CssSel :=
  [ tagSel "article", tagClass "div" "post", tagClass "div" "article",
    tagClass "div" "blog-post", tagClass "div" "entry",
    tagClass "section" "post", tagClass "div" "content-item" ]

/-- The ordered date pattern strings (lines 520-525), passed verbatim to the
regex oracle. -/
def datePatterns : List String :=
  [ "\\d{4}-\\d{2}-\\d{2}",
    "\\d{1,2}/\\d{1,2}/\\d{4}",
    "\\w+ \\d{1,2}, \\d{4}",
    "\\d{1,2} \\w+ \\d{4}" ]

/-- The author loop (lines 534-539): first author-classed tag with non-empty
stripped text shorter than 100 chars; strip leading-style `'By '`/`'by '`
occurrences via `str.replace`. -/
def authorPick : List HNode → Option String
  | [] => none
  | tag :: rest =>
    let t := getTextStrip tag
    if t ≠ "" ∧ t.length < 100 then some (replaceStr (replaceStr t "By " "") "by " "")
    else authorPick rest

/-- `ScrapingWorker.extract_article_listings`. -/
def extract_article_listings (re : Re) (soup : HNode) : List Record :=
  let articles := firstSelWith soup (fun f => ¬ f.isEmpty) articleSelectors
  if articles.isEmpty then []
  else
    (articles.take 50).filterMap (fun article =>
      -- title: first h1/h2/h3/h4 in document order (line 515)
      let data : Record :=
        match (findAllTags article ["h1", "h2", "h3", "h4"]).head? with
        | some t => [("title", Value.s (getTextStrip t))]
        | none => []
      -- date: first pattern with a findall hit on the raw article text
      let data :=
        match firstFindall re (getTextRaw article) datePatterns with
        | some d => dictInsert data "date" (.s d)
        | none => data
      -- author
      let data :=
        match authorPick (findAllClassRe re ["span", "div", "p"] "author|by-line|writer" article) with
        | some a => dictInsert data "author" (.s a)
        | none => data
      -- summary: first summary-classed tag, else the first paragraph (lines 542-546)
      let data :=
        match (findAllClassRe re ["p", "div"] "summary|excerpt|description" article).head? with
        | some st => dictInsert data "summary" (.s (takeStr (getTextStrip st) 300))
        | none =>
          match findTag article "p" with
          | some p => dictInsert data "summary" (.s (takeStr (getTextStrip p) 300))
          | none => data
      -- link
      let data :=
        match findTagWithAttr article "a" "href" with
        | some link => dictInsert data "link" (.s ((attrGet link "href").getD ""))
        | none => data
      -- categories: up to 5 texts collected as a list (lines 554-556)
      let catTags := findAllClassRe re ["span", "a"] "category|tag|label" article
      let data :=
        if ¬ catTags.isEmpty then
          dictInsert data "categories" (.strList ((catTags.take 5).map getTextStrip))
        else data
      if data ≠ [] ∧ hasKey data "title" then some data else none)

/-! ## Card/grid extraction (`ScrapingWorker.extract_card_data`, lines 563-637) -/

/-- `card_selectors` (lines 568-573). -/
def cardSelectors : List CssSel :=
  [ tagClass "div" "card", tagClass "div" "panel", tagClass "div" "tile",
    tagClass "div" "box", tagClass "div" "module", tagClass "div" "widget",
    tagAttrContains "div" "class" "card", tagAttrContains "div" "class" "item",
    tagAttrContains "div" "class" "col-" ]

/-- The field-classification regex pattern strings (lines 611-617). -/
def cardPricePattern : String := "\\$[\\d,]+\\.?\\d*|£[\\d,]+\\.?\\d*|€[\\d,]+\\.?\\d*"

/-- Date pattern of the card classifier (line 613). -/
def cardDatePattern : String := "\\d{4}-\\d{2}-\\d{2}|\\d{1,2}/\\d{1,2}/\\d{4}"

/-- Phone pattern of the card classifier (line 617). -/
def cardPhonePattern : String := "\\+?\\d{10,}|\\(\\d{3}\\)"

/-- `ScrapingWorker.extract_card_data`. -/
def extract_card_data (re : Re) (soup : HNode) : List Record :=
  let cards := firstSelWith soup (fun f => f.length > 2) cardSelectors
  if cards.isEmpty then []
  else
    (cards.take 100).filterMap (fun card =>
      let cardText := getTextSep card
      -- skip cards with fewer than 10 chars of text (lines 589-593)
      if cardText.length < 10 then none
      else
        -- title: first heading or bold element (line 596)
        let data : Record :=
          match (findAllTags card ["h1", "h2", "h3", "h4", "h5", "h6", "strong", "b"]).head? with
          | some t => [("title", Value.s (getTextStrip t))]
          | none => []
        -- up to 10 distinct non-empty text fragments (lines 601-606)
        let textElements := (findAllTags card ["p", "span", "div"]).filter
          (fun e => (nodeString e).isSome)
        let fields := (textElements.take 10).foldl (fun fs e =>
          let t := getTextStrip e
          if t ≠ "" ∧ t.length > 3 ∧ t ∉ fs then fs ++ [t] else fs) []
        -- classify each fragment (lines 608-622)
        let data :=
          if ¬ fields.isEmpty then
            fields.enum.foldl (fun d ifield =>
              let i := ifield.1
              let field := ifield.2
              if re.searchB cardPricePattern field then dictInsert d "price" (.s field)
              else if re.searchB cardDatePattern field then dictInsert d "date" (.s field)
              else if re.searchCI "@|email" field then dictInsert d "email" (.s field)
              else if re.searchB cardPhonePattern field then dictInsert d "phone" (.s field)
              else if i = 0 ∧ ¬ hasKey d "title" then dictInsert d "title" (.s field)
              else dictInsert d ("field_" ++ toString i) (.s (takeStr field 200))) data
          else data
        -- image only when `img.get('src')` is truthy (lines 625-627)
        let data :=
          match findTag card "img" with
          | some img =>
            match attrGet img "src" with
            | some sv => if sv ≠ "" then dictInsert data "image" (.s sv) else data
            | none => data
          | none => data
        let data :=
          match findTagWithAttr card "a" "href" with
          | some link => dictInsert data "link" (.s ((attrGet link "href").getD ""))
          | none => data
        if data ≠ [] then some data else none)

/-! ## General fallback (`ScrapingWorker.extract_general_data`, lines 639-676) -/

/-- `ScrapingWorker.extract_general_data`: page title, first `h1`, meta
description, the visible text truncated to 5000 chars (always present), and
JSON-LD blocks whose parse succeeded. -/
def extract_general_data (jsonParse : String → Option String) (soup : HNode) : Record :=
  let result : Record :=
    match findTag soup "title" with
    | some t => [("title", Value.s (getTextStrip t))]
    | none => []
  let result :=
    match findTag soup "h1" with
    | some h => dictInsert result "heading" (.s (getTextStrip h))
    | none => result
  let result :=
    match findTagAttrEq soup "meta" "name" "description" with
    | some m => dictInsert result "description" (.s ((attrGet m "content").getD ""))
    | none => result
  let result := dictInsert result "full_text" (.s (takeStr (getTextSep soup) 5000))
  let jsonLd := findAllTagAttrEq soup "script" "type" "application/ld+json"
  if ¬ jsonLd.isEmpty then
    let structuredData := jsonLd.foldl (fun acc script =>
      match nodeString script with
      | some s =>
        match jsonParse s with
        | some blob => acc ++ [blob]
        | none => acc
      | none => acc) []
    if structuredData ≠ [] then dictInsert result "structured_data" (.blobs structuredData)
    else result
  else result

/-! ## Explicit-selector extraction (`ScrapingWorker.extract_with_selectors`,
lines 678-722) -/

/-- The record built for one container element (lines 686-692): every
non-`container` field selector evaluated within the element via
`select_one`. -/
def containerRecord (selectors : List (String × CssSel)) (container : HNode) : Record :=
  selectors.foldl (fun record kv =>
    if kv.1 ≠ "container" then
      match selectOne container kv.2 with
      | some element => dictInsert record kv.1 (.s (getTextStrip element))
      | none => record
    else record) []

/-- Record `i` of the zip-by-index branch (lines 701-708): each field whose
selector has more than `i` matches contributes its `i`-th match. -/
def zipRecord (soup : HNode) (selectors : List (String × CssSel)) (i : Nat) : Record :=
  selectors.foldl (fun record kv =>
    let elements := select soup kv.2
    match elements.get? i with
    | some element => dictInsert record kv.1 (.s (getTextStrip element))
    | none => record) []

/-- The single-record branch (lines 710-720): each field is the sole match's
text, or the list of all matched texts when a selector matches several
elements; fields with no match are absent. -/
def singleRecord (soup : HNode) (selectors : List (String × CssSel)) : Record :=
  selectors.foldl (fun record kv =>
    match select soup kv.2 with
    | [] => record
    | [element] => dictInsert record kv.1 (.s (getTextStrip element))
    | elements => dictInsert record kv.1 (.strList (elements.map getTextStrip)) ) []

/-- `ScrapingWorker.extract_with_selectors`.  With a `container` key: one
record per matching container, dropped when empty.  Without: zip-by-index
when the first field matches more than one element, else at most one
record.  (Python would raise on an empty selector dict; the callers guard
with the dict's truthiness, and an empty dict is modelled as no records.) -/
def extract_with_selectors (soup : HNode) (selectors : List (String × CssSel)) : List Record :=
  match selectors.lookup "container" with
  | some containerSel =>
    (select soup containerSel).filterMap (fun container =>
      let record := containerRecord selectors container
      if record ≠ [] then some record else none)
  | none =>
    match selectors with
    | [] => []
    | (_, firstSel) :: _ =>
      let firstElements := select soup firstSel
      if firstElements.length > 1 then
        (List.range firstElements.length).filterMap (fun i =>
          let record := zipRecord soup selectors i
          if record ≠ [] then some record else none)
      else
        let record := singleRecord soup selectors
        if record ≠ [] then [record] else []

/-! ## Auto-extract chain (`ScrapingWorker.enhanced_auto_extract`,
lines 222-254) -/

/-- The table pass (lines 227-231): for every `table` element, extend the
result list with that table's records when non-empty. -/
def allTableRecords (soup : HNode) : List Record :=
  (findAllTags soup ["table"]).foldl (fun acc table =>
    let tableData := extract_table_data table
    if tableData ≠ [] then acc ++ tableData else acc) []

/-- `ScrapingWorker.enhanced_auto_extract`: tables, product listings,
article listings and cards all contribute; the general fallback fires only
when the four heuristics produced nothing.  (The `current_url` argument is
unused by the source body and kept for fidelity.) -/
def enhanced_auto_extract (re : Re) (jsonParse : String → Option String)
    (soup : HNode) (currentUrl : String) : List Record :=
  let results := allTableRecords soup
  let productResults := extract_product_listings re soup
  let results := if productResults ≠ [] then results ++ productResults else results
  let articleResults := extract_article_listings re soup
  let results := if articleResults ≠ [] then results ++ articleResults else results
  let cardResults := extract_card_data re soup
  let results := if cardResults ≠ [] then results ++ cardResults else results
  if results = [] then
    let generalResult := extract_general_data jsonParse soup
    if generalResult ≠ [] then [generalResult] else []
  else results

/-! ## Pagination discovery (`ScrapingWorker.find_pagination_links`,
lines 724-772) -/

/-- `pagination_selectors` (lines 732-736). -/
def paginationSelectors : List CssSel :=
  [ tagClass "nav" "pagination", tagClass "div" "pagination", tagClass "ul" "pagination",
    tagClass "div" "pager", tagClass "div" "page-numbers", tagClass "div" "pages",
    tagClass "a" "next", tagClass "a" "page-link", tagAttrEqSel "a" "rel" "next" ]

/-- `next_patterns` (line 763). -/
def nextPatterns : List String := ["next", "siguiente", "suivant", "»", "›", "more"]

/-- The anchors harvested from one pagination container match set
(lines 741-747): direct `a` matches, else all `a[href]` descendants. -/
def paginationAnchors (elements : List HNode) : List HNode :=
  elements.foldl (fun links elem =>
    if tagOf elem = some "a" then links ++ [elem]
    else links ++ findAllTagWithAttr elem "a" "href") []

/-- Resolve the anchors' hrefs against the current URL and keep same-host
results, appending to the accumulator (lines 749-756). -/
def keepSameHost (env : ScrapeEnv) (currentUrl : String) (links : List HNode)
    (acc : List String) : List String :=
  links.foldl (fun acc link =>
    match attrGet link "href" with
    | some href =>
      if href ≠ "" then
        let fullUrl := env.urljoin currentUrl href
        if env.netloc fullUrl = env.netloc currentUrl then acc ++ [fullUrl] else acc
      else acc
    | none => acc) acc

/-- The selector loop of `find_pagination_links` (lines 738-759): accumulate
links of the first selector with matches; stop as soon as the accumulated
list is non-empty. -/
def paginationSelLoop (env : ScrapeEnv) (soup : HNode) (currentUrl : String) :
    List CssSel → List String → List String
  | [], acc => acc
  | s :: rest, acc =>
    let elements := select soup s
    if elements.isEmpty then paginationSelLoop env soup currentUrl rest acc
    else
      let acc := keepSameHost env currentUrl (paginationAnchors elements) acc
      if acc ≠ [] then acc else paginationSelLoop env soup currentUrl rest acc

/-- The `"Next"`-text fallback (lines 762-770): first pattern whose matching
anchor resolves to a same-host URL appends that one URL. -/
def paginationTextLoop (env : ScrapeEnv) (soup : HNode) (currentUrl : String) :
    List String → List String → List String
  | [], acc => acc
  | pat :: rest, acc =>
    match findAnchorStringCI env.reEnv pat soup with
    | some nextLink =>
      match attrGet nextLink "href" with
      | some href =>
        if href ≠ "" then
          let fullUrl := env.urljoin currentUrl href
          if env.netloc fullUrl = env.netloc currentUrl then acc ++ [fullUrl]
          else paginationTextLoop env soup currentUrl rest acc
        else paginationTextLoop env soup currentUrl rest acc
      | none => paginationTextLoop env soup currentUrl rest acc
    | none => paginationTextLoop env soup currentUrl rest acc

/-- `ScrapingWorker.find_pagination_links`: selector loop, then the text
fallback when nothing was found, capped at 5 links (line 772). -/
def find_pagination_links (env : ScrapeEnv) (soup : HNode) (currentUrl : String) :
    List String :=
  let paginationLinks := paginationSelLoop env soup currentUrl paginationSelectors []
  let paginationLinks :=
    if paginationLinks = [] then paginationTextLoop env soup currentUrl nextPatterns []
    else paginationLinks
  paginationLinks.take 5

/-! ## Safety checks (`check_robots` lines 774-788, `is_safe_url`
lines 790-810) -/

/-- `ScrapingWorker.check_robots`: builds the origin's robots URL, retrieves
it (`rp.read()` — a network request, emitted as an event), and returns the
`can_fetch` verdict; any exception defaults to allow. -/
def check_robots (env : ScrapeEnv) (url : String) : List NetEvent × Bool :=
  let robotsUrl := env.scheme url ++ "://" ++ env.netloc url ++ "/robots.txt"
  ([.robotsFetch robotsUrl], (env.canFetchRobots robotsUrl url).getD true)

/-- `ScrapingWorker.is_safe_url`: falsy hostname, failed resolution or
failed address parsing deny; private, loopback and link-local addresses
deny; otherwise allow. -/
def is_safe_url (env : ScrapeEnv) (url : String) : Bool :=
  match env.hostname url with
  | none => false
  | some host =>
    if host = "" then false
    else
      match env.resolveIp host with
      | none => false
      | some ip => ! (ip.isPrivate || ip.isLoopback || ip.isLinkLocal)

/-! ## The crawl loop and `scrape_url` (lines 152-220) -/

/-- Truthiness of the decoded `selectors` job column (Python: `None` and the
empty dict are falsy). -/
def selsTruthy : Option (List (String × CssSel)) → Bool
  | some l => ¬ l.isEmpty
  | none => false

/-- Result of one crawl: the network events in order, the accumulated
records, and the final page counter. -/
structure CrawlOut where
  events : List NetEvent
  results : List Record
  pages : Nat
deriving DecidableEq

/-- The `while urls_to_visit and pages_scraped < max_pages` loop of
`scrape_url` (lines 178-215): pop the frontier, skip visited URLs, record
the fetch, and on success extract records, bump the page counter and (while
budget remains) enqueue new same-host pagination links not yet visited or
queued.  Fetch/parse failures skip the URL and continue. -/
def crawlLoop (env : ScrapeEnv) (mode : String) (sels : Option (List (String × CssSel)))
    (urls visited : List String) (results : List Record) (events : List NetEvent)
    (pages maxPages : Nat) : CrawlOut :=
  match urls with
  | [] => ⟨events, results, pages⟩
  | u :: rest =>
    if h : pages < maxPages then
      if u ∈ visited then
        crawlLoop env mode sels rest visited results events pages maxPages
      else
        let visited' := u :: visited
        let events' := events ++ [.pageFetch u]
        match env.fetch u with
        | none =>
          -- `except Exception: continue` (lines 213-215)
          crawlLoop env mode sels rest visited' results events' pages maxPages
        | some soup =>
          let rs :=
            if mode = "css" ∧ selsTruthy sels then extract_with_selectors soup (sels.getD [])
            else enhanced_auto_extract env.reEnv env.jsonParse soup u
          let results' := if rs ≠ [] then results ++ rs else results
          let pages' := pages + 1
          let urls' :=
            if pages' < maxPages then
              (find_pagination_links env soup u).foldl (fun q link =>
                if link ∉ visited' ∧ link ∉ q then q ++ [link] else q) rest
            else rest
          crawlLoop env mode sels urls' visited' results' events' pages' maxPages
    else ⟨events, results, pages⟩
termination_by (maxPages - pages, urls.length)
decreasing_by
  · exact Prod.Lex.right _ (by simp)
  · exact Prod.Lex.right _ (by simp)
  · exact Prod.Lex.left _ _ (by omega)

/-- `ScrapingWorker.scrape_url`: robots check, then the address check, then
the crawl loop; a denial raises, which the outer handler re-raises with the
`"Scraping failed: "` prefix (lines 219-220).  The returned event list is
every network request issued, in order. -/
def scrape_url (env : ScrapeEnv) (url mode : String)
    (sels : Option (List (String × CssSel))) (maxPages : Nat) :
    List NetEvent × Except String (List Record) :=
  let robotsEvents := (check_robots env url).1
  let allowed := (check_robots env url).2
  if ¬ allowed then
    (robotsEvents, .error "Scraping failed: Robots.txt disallows scraping this URL")
  else if ¬ is_safe_url env url then
    (robotsEvents, .error "Scraping failed: URL points to a private or local IP address")
  else
    let out := crawlLoop env mode sels [url] [] [] [] 0 maxPages
    (robotsEvents ++ out.events, .ok out.results)

/-! ## Job processing (`ScrapingWorker.process_job`, lines 103-150) -/

/-- Job status values. -/
inductive JStatus where
  | queued
  | running
  | completed
  | failed
deriving DecidableEq

/-- The job row as read from the store: URL, mode, decoded selectors, and
the `max_pages` column (`job[6] or 1` replaces a falsy value by 1). -/
structure JobRow where
  url : String
  mode : String
  selectors : Option (List (String × CssSel))
  maxPages : Nat

/-- Outcome of `process_job`: the status updates issued in order, the error
message written (if any), the persisted results (if any), and the network
events of the crawl. -/
structure JobOutcome where
  statusUpdates : List JStatus
  error : Option String
  saved : Option (List Record)
  events : List NetEvent

/-- `ScrapingWorker.process_job`: set `running`; run `scrape_url`; persist
and set `completed` on a non-empty result, set `failed` with
`'No data extracted'` on an empty one; any raised error sets `failed` with
the error's message. -/
def process_job (env : ScrapeEnv) (job : JobRow) : JobOutcome :=
  let maxPages := if job.maxPages = 0 then 1 else job.maxPages
  match scrape_url env job.url job.mode job.selectors maxPages with
  | (events, .ok results) =>
    if results ≠ [] then
      { statusUpdates := [.running, .completed], error := none,
        saved := some results, events := events }
    else
      { statusUpdates := [.running, .failed], error := some "No data extracted",
        saved := none, events := events }
  | (events, .error e) =>
    { statusUpdates := [.running, .failed], error := some e,
      saved := none, events := events }

/-- The page-fetch URLs of an event trace, in order. -/
def fetchedUrls (events : List NetEvent) : List String :=
  events.filterMap (fun e =>
    match e with
    | .pageFetch u => some u
    | .robotsFetch _ => none)

/-- The claim-side premise of the address check: the seed URL's hostname is
non-empty and resolves to a private, loopback or link-local address. -/
def unsafeResolved (env : ScrapeEnv) (url : String) : Prop :=
  ∃ host ip, env.hostname url = some host ∧ host ≠ "" ∧ env.resolveIp host = some ip ∧
    (ip.isPrivate ∨ ip.isLoopback ∨ ip.isLinkLocal)

/-- The row-keeping condition of table extraction as the code enforces it:
matching cell count, and the header-keyed row dict non-empty with at least
one truthy value. -/
def rowKeepB (headers : List String) (row : HNode) : Bool :=
  let cells := rowCells row
  if cells.length = headers.length then
    let rowData := buildRowRecord headers cells
    decide (rowData ≠ []) && rowData.any (fun kv => valueTruthy kv.2)
  else false

/-! ## Concrete evaluation inputs -/

/-- Element node with no attributes. -/
def elN (t : String) (cs : List HNode) : HNode := .elem t [] cs

/-- Element node with attributes. -/
def elAttrs (t : String) (a : List (String × String)) (cs : List HNode) : HNode := .elem t a cs

/-- Text node. -/
def txtN (s : String) : HNode := .text s

/-- A regex oracle with no matches (sufficient for pages whose extraction
path never consults the regex module). -/
def reNone : Re := ⟨fun _ _ => [], fun _ _ => false, fun _ _ => false⟩

/-- A JSON parser oracle that rejects every document. -/
def jsonNone : String → Option String := fun _ => none

/-- Scenario table: `thead` with `Name`/`Price`, `tbody` with two data rows. -/
def scenarioTable : HNode :=
  elN "table" [
    elN "thead" [elN "tr" [elN "th" [txtN "Name"], elN "th" [txtN "Price"]]],
    elN "tbody" [
      elN "tr" [elN "td" [txtN "Alice"], elN "td" [txtN "10"]],
      elN "tr" [elN "td" [txtN "Bob"], elN "td" [txtN "20"]]]]

/-- A table with duplicate headers `A`, `A` and one data row `x`, `""`. -/
def dupTable : HNode :=
  elN "table" [
    elN "tr" [elN "th" [txtN "A"], elN "th" [txtN "A"]],
    elN "tr" [elN "td" [txtN "x"], elN "td" [txtN ""]]]

/-- The data row of `dupTable`. -/
def dupDataRow : HNode := elN "tr" [elN "td" [txtN "x"], elN "td" [txtN ""]]

/-- A page with three `.item` containers, each holding an `h3` and a `.price`. -/
def itemsPage : HNode :=
  elN "body" [
    elAttrs "div" [("class", "item")]
      [elN "h3" [txtN "T1"], elAttrs "span" [("class", "price")] [txtN "$1"]],
    elAttrs "div" [("class", "item")]
      [elN "h3" [txtN "T2"], elAttrs "span" [("class", "price")] [txtN "$2"]],
    elAttrs "div" [("class", "item")]
      [elN "h3" [txtN "T3"], elAttrs "span" [("class", "price")] [txtN "$3"]]]

/-- The selector spec `{"container": ".item", "title": "h3", "price": ".price"}`. -/
def selsContainer : List (String × CssSel) :=
  [("container", classSel "item"), ("title", tagSel "h3"), ("price", classSel "price")]

/-- A page with one `.item` container matching none of the field selectors. -/
def emptyItemPage : HNode := elN "body" [elAttrs "div" [("class", "item")] [txtN "plain"]]

/-- A page with two `h3` elements and one `.price` element. -/
def zipPage : HNode :=
  elN "body" [elN "h3" [txtN "A"], elN "h3" [txtN "B"],
    elAttrs "span" [("class", "price")] [txtN "$9"]]

/-- The container-free selector spec `{"title": "h3", "price": ".price"}`. -/
def selsFlat : List (String × CssSel) := [("title", tagSel "h3"), ("price", classSel "price")]

/-- A page on which no field selector matches anything. -/
def plainPage : HNode := elN "body" [txtN "hi"]

/-- A books.toscrape.com-style page: one `article.product_pod` with the
site-specific title/price/rating/availability/image/link structure. -/
def booksPage : HNode :=
  elN "html" [
    elAttrs "a" [("href", "http://books.toscrape.com")] [txtN "site"],
    elAttrs "article" [("class", "product_pod")] [
      elN "h3" [elAttrs "a" [("title", "A Light in the Attic"), ("href", "cat/alight")]
        [txtN "A Light..."]],
      elAttrs "div" [("class", "image_container")] [elAttrs "img" [("src", "img1.jpg")] []],
      elAttrs "p" [("class", "star-rating Three")] [],
      elAttrs "p" [("class", "price_color")] [txtN "£51.77"],
      elAttrs "p" [("class", "instock availability")] [txtN "In stock"]]]

/-- A page with a `nav.pagination` holding a same-host and a foreign-host link. -/
def pagPage : HNode :=
  elN "body" [
    elAttrs "nav" [("class", "pagination")] [
      elAttrs "a" [("href", "/page2")] [txtN "next"],
      elAttrs "a" [("href", "http://other.example/x")] [txtN "other"]]]

/-- A benign environment whose every page fetch fails (transport error). -/
def envNoFetch : ScrapeEnv :=
  { scheme := fun _ => "http",
    netloc := fun u => if containsSub u "other.example" then "other.example" else "host.example",
    hostname := fun _ => some "host.example",
    resolveIp := fun _ => some ⟨false, false, false⟩,
    canFetchRobots := fun _ _ => some true,
    fetch := fun _ => none,
    urljoin := fun _ href => href,
    reEnv := reNone,
    jsonParse := jsonNone }

/-- An environment whose seed hostname resolves to the loopback address. -/
def envLoopback : ScrapeEnv :=
  { envNoFetch with
    netloc := fun _ => "127.0.0.1",
    hostname := fun _ => some "127.0.0.1",
    resolveIp := fun _ => some ⟨true, true, false⟩ }

/-- An environment whose every fetch succeeds with a plain page. -/
def envFetchOk : ScrapeEnv := { envNoFetch with fetch := fun _ => some plainPage }

/-- A job whose seed URL points at the loopback host. -/
def jobLoopback : JobRow := ⟨"http://127.0.0.1/x", "auto", none, 1⟩

/-- A benign single-page job. -/
def jobSeed : JobRow := ⟨"http://host.example/a", "auto", none, 1⟩

/-! ## Helper lemmas -/

theorem dictInsert_ne_nil (r : Record) (k : String) (v : Value) : dictInsert r k v ≠ [] := by
  unfold dictInsert
  split
  · match r with
    | [] => simp_all
    | kv :: t => simp
  · simp

theorem foldl_ne_nil {α : Type} (f : Record → α → Record)
    (hf : ∀ r x, r ≠ [] → f r x ≠ []) :
    ∀ (l : List α) (r : Record), r ≠ [] → l.foldl f r ≠ [] := by
  intro l
  induction l with
  | nil => intro r h; simpa
  | cons x xs ih => intro r h; exact ih (f r x) (hf r x h)

theorem filterMap_record_all {α : Type} (g : α → Record) :
    ∀ (l : List α), (∀ c ∈ l, g c ≠ []) →
    (l.filterMap fun c => if g c ≠ [] then some (g c) else none) = l.map g := by
  intro l
  induction l with
  | nil => intro _; rfl
  | cons c cs ih =>
    intro h
    have hc := h c (List.mem_cons_self c cs)
    simp only [List.filterMap_cons, hc, if_true, ne_eq, not_false_iff, ite_true, List.map_cons]
    rw [ih (fun x hx => h x (List.mem_cons_of_mem _ hx))]

theorem foldl_if_filter_map {α β : Type} (p : α → Bool) (f : α → β) :
    ∀ (l : List α) (acc : List β),
      l.foldl (fun a x => if p x then a ++ [f x] else a) acc = acc ++ (l.filter p).map f := by
  intro l
  induction l with
  | nil => intro acc; simp
  | cons x xs ih =>
    intro acc
    by_cases hp : p x <;> simp [List.foldl_cons, hp, ih, List.filter_cons]

theorem if_append_records (r x : List Record) : (if x ≠ [] then r ++ x else r) = r ++ x := by
  by_cases h : x = [] <;> simp [h]

theorem extract_general_data_ne_nil (jsonParse : String → Option String) (soup : HNode) :
    extract_general_data jsonParse soup ≠ [] := by
  simp only [extract_general_data]
  split
  · split
    · exact dictInsert_ne_nil _ _ _
    · exact dictInsert_ne_nil _ _ _
  · exact dictInsert_ne_nil _ _ _

/-! ## Claim C10 -/

/-- Claim C10 (confirmed): on any page whose serialized markup contains the
substring `'books.toscrape'`, if the dedicated `article.product_pod` path
yields at least one record then `extract_product_listings` returns exactly
those records, for every regex oracle — the generic container-pattern chain
is never consulted. -/
theorem books_path_short_circuits (re : Re) (soup : HNode)
    (h1 : containsSub (HNode.render soup) "books.toscrape" = true)
    (h2 : booksRecords soup ≠ []) :
    extract_product_listings re soup = booksRecords soup := by
  unfold extract_product_listings
  simp [h1, h2]

/-- Witness for C10: a concrete books.toscrape-style page. -/
theorem books_path_short_circuits_witness :
    extract_product_listings reNone booksPage = booksRecords booksPage :=
  books_path_short_circuits reNone booksPage (by decide) (by decide)

/-! ## Claim C9 -/

/-- Claim C9 (confirmed): in auto mode every heuristic that produces output
contributes its records — the result is exactly the concatenation
tables ++ products ++ articles ++ cards whenever that is non-empty — and the
general fallback record is produced exactly when the four heuristics
together produced nothing (the fallback record itself is never empty since
it always carries `full_text`). -/
theorem auto_chain_not_short_circuited (re : Re) (jsonParse : String → Option String)
    (soup : HNode) (currentUrl : String) :
    (allTableRecords soup ++ extract_product_listings re soup ++
        extract_article_listings re soup ++ extract_card_data re soup ≠ [] →
      enhanced_auto_extract re jsonParse soup currentUrl =
        allTableRecords soup ++ extract_product_listings re soup ++
          extract_article_listings re soup ++ extract_card_data re soup) ∧
    (allTableRecords soup ++ extract_product_listings re soup ++
        extract_article_listings re soup ++ extract_card_data re soup = [] →
      enhanced_auto_extract re jsonParse soup currentUrl =
        [extract_general_data jsonParse soup]) ∧
    extract_general_data jsonParse soup ≠ [] := by
  have hgen := extract_general_data_ne_nil jsonParse soup
  refine ⟨?_, ?_, hgen⟩
  · intro hne
    rw [List.append_assoc, List.append_assoc] at hne
    simp only [enhanced_auto_extract, if_append_records]
    simp only [List.append_assoc]
    rw [if_neg hne]
  · intro heq
    rw [List.append_assoc, List.append_assoc] at heq
    simp only [enhanced_auto_extract, if_append_records]
    simp only [List.append_assoc]
    rw [if_pos heq, if_pos hgen]

/-- Witness for C9: on a structureless page the four heuristics produce
nothing and the result is exactly the single general-fallback record. -/
theorem auto_chain_not_short_circuited_witness :
    enhanced_auto_extract reNone jsonNone plainPage "http://host.example/a" =
      [extract_general_data jsonNone plainPage] :=
  (auto_chain_not_short_circuited reNone jsonNone plainPage "http://host.example/a").2.1
    (by decide)

/-! ## Claim C7 -/

/-- Claim C7 (corrected, original refuted): a container selector matching one
element whose record stays empty yields zero records, not one record per
matched container element. -/
theorem container_mode_drops_empty_records :
    (select emptyItemPage (classSel "item")).length = 1 ∧
    extract_with_selectors emptyItemPage selsContainer = [] := by
  exact ⟨by decide, by decide⟩

/-- Claim C7 (amended): with a `container` key, the output is one record per
matched container element that yields at least one field; in particular it
is exactly N records when every matched container yields a field. -/
theorem container_mode_one_record_per_container (soup : HNode)
    (selectors : List (String × CssSel)) (containerSel : CssSel)
    (hc : selectors.lookup "container" = some containerSel)
    (hall : ∀ c ∈ select soup containerSel, containerRecord selectors c ≠ []) :
    extract_with_selectors soup selectors =
      (select soup containerSel).map (containerRecord selectors) ∧
    (extract_with_selectors soup selectors).length = (select soup containerSel).length := by
  have heq : extract_with_selectors soup selectors =
      (select soup containerSel).map (containerRecord selectors) := by
    unfold extract_with_selectors
    rw [hc]
    exact filterMap_record_all (containerRecord selectors) (select soup containerSel) hall
  exact ⟨heq, by rw [heq, List.length_map]⟩

/-- Witness for C7: three `.item` containers, each yielding fields, give
exactly 3 records. -/
theorem container_mode_one_record_per_container_witness :
    extract_with_selectors itemsPage selsContainer =
      (select itemsPage (classSel "item")).map (containerRecord selsContainer) ∧
    (extract_with_selectors itemsPage selsContainer).length = 3 := by
  have h := container_mode_one_record_per_container itemsPage selsContainer (classSel "item")
    (by decide) (by decide)
  exact ⟨h.1, h.2.trans (by decide)⟩

/-! ## Claim C8 -/

theorem zipRecord_ne_nil (soup : HNode) (k0 : String) (s0 : CssSel)
    (rest : List (String × CssSel)) (i : Nat) (hi : i < (select soup s0).length) :
    zipRecord soup ((k0, s0) :: rest) i ≠ [] := by
  unfold zipRecord
  rw [List.foldl_cons]
  apply foldl_ne_nil
  · intro r kv hr
    dsimp only
    split
    · exact dictInsert_ne_nil _ _ _
    · exact hr
  · dsimp only
    rw [List.get?_eq_get hi]
    exact dictInsert_ne_nil _ _ _

theorem singleRecord_nil_of_all (soup : HNode) :
    ∀ (selectors : List (String × CssSel)),
      (∀ kv ∈ selectors, select soup kv.2 = []) → singleRecord soup selectors = [] := by
  intro selectors
  induction selectors with
  | nil => intro _; rfl
  | cons kv rest ih =>
    intro h
    have hkv := h kv (List.mem_cons_self kv rest)
    unfold singleRecord
    rw [List.foldl_cons]
    have hstep : (match select soup kv.2 with
        | [] => ([] : Record)
        | [element] => dictInsert [] kv.1 (.s (getTextStrip element))
        | elements => dictInsert [] kv.1 (.strList (elements.map getTextStrip))) = [] := by
      rw [hkv]
    rw [hstep]
    exact ih (fun x hx => h x (List.mem_cons_of_mem _ hx))

theorem singleRecord_ne_nil_of_ex (soup : HNode) :
    ∀ (selectors : List (String × CssSel)),
      (∃ kv ∈ selectors, select soup kv.2 ≠ []) → singleRecord soup selectors ≠ [] := by
  have hstep : ∀ (r : Record) (kv : String × CssSel), r ≠ [] →
      (match select soup kv.2 with
        | [] => r
        | [element] => dictInsert r kv.1 (.s (getTextStrip element))
        | elements => dictInsert r kv.1 (.strList (elements.map getTextStrip))) ≠ [] := by
    intro r kv hr
    split
    · exact hr
    · exact dictInsert_ne_nil _ _ _
    · exact dictInsert_ne_nil _ _ _
  intro selectors
  induction selectors with
  | nil => rintro ⟨kv, hmem, _⟩; cases hmem
  | cons kv rest ih =>
    rintro ⟨kw, hmem, hne⟩
    unfold singleRecord
    rw [List.foldl_cons]
    rcases List.mem_cons.mp hmem with heq | htail
    · subst heq
      rcases hsel : select soup kw.2 with _ | ⟨e, es⟩
      · exact absurd hsel hne
      · apply foldl_ne_nil _ hstep
        dsimp only
        cases es
        · exact dictInsert_ne_nil _ _ _
        · exact dictInsert_ne_nil _ _ _
    · by_cases hfirst : (match select soup kv.2 with
          | [] => ([] : Record)
          | [element] => dictInsert [] kv.1 (.s (getTextStrip element))
          | elements => dictInsert [] kv.1 (.strList (elements.map getTextStrip))) = []
      · rw [hfirst]
        exact ih ⟨kw, htail, hne⟩
      · exact foldl_ne_nil _ hstep _ _ hfirst

/-- Claim C8 (corrected, original refuted): with no `container` key, if the
first field's selector matches zero elements (and no other field matches
either) the single-record branch produces no record at all, not a single
record. -/
theorem flat_mode_zero_matches_no_record :
    (select plainPage (tagSel "h3")).length = 0 ∧
    extract_with_selectors plainPage selsFlat = [] := by
  exact ⟨by decide, by decide⟩

/-- Claim C8 (amended): without a `container` key — when the first field's
selector matches more than one element, one record is produced per match,
record `i` taking element `i` of every field selector with at least `i+1`
matches; when it matches at most one element, a single record (fields as
first-match text, or all-match list) is produced exactly when at least one
field selector matches something, and no record otherwise. -/
theorem flat_mode_zip_and_single (soup : HNode) (k0 : String) (s0 : CssSel)
    (rest : List (String × CssSel))
    (hnc : ((k0, s0) :: rest).lookup "container" = none) :
    ((select soup s0).length > 1 →
      extract_with_selectors soup ((k0, s0) :: rest) =
        (List.range (select soup s0).length).map (zipRecord soup ((k0, s0) :: rest))) ∧
    (¬ (select soup s0).length > 1 →
      ((∀ kv ∈ (k0, s0) :: rest, select soup kv.2 = []) →
        extract_with_selectors soup ((k0, s0) :: rest) = []) ∧
      ((∃ kv ∈ (k0, s0) :: rest, select soup kv.2 ≠ []) →
        extract_with_selectors soup ((k0, s0) :: rest) =
          [singleRecord soup ((k0, s0) :: rest)])) := by
  constructor
  · intro hgt
    unfold extract_with_selectors
    rw [hnc]
    simp only [if_pos hgt]
    apply filterMap_record_all
    intro i hi
    exact zipRecord_ne_nil soup k0 s0 rest i (List.mem_range.mp hi)
  · intro hle
    constructor
    · intro hall
      have hnil := singleRecord_nil_of_all soup ((k0, s0) :: rest) hall
      unfold extract_with_selectors
      rw [hnc]
      simp only [if_neg hle, hnil]
      simp
    · intro hex
      have hne := singleRecord_ne_nil_of_ex soup ((k0, s0) :: rest) hex
      unfold extract_with_selectors
      rw [hnc]
      simp only [if_neg hle]
      simp [hne]

/-- Witness for C8: two `h3` matches give one record per match, zipped by
index. -/
theorem flat_mode_zip_and_single_witness :
    extract_with_selectors zipPage selsFlat =
      (List.range (select zipPage (tagSel "h3")).length).map (zipRecord zipPage selsFlat) :=
  (flat_mode_zip_and_single zipPage "title" (tagSel "h3") [("price", classSel "price")]
    (by decide)).1 (by decide)

/-! ## Claim C6 -/

theorem rowKeepB_iff (headers : List String) (row : HNode) :
    rowKeepB headers row = true ↔
      ((rowCells row).length = headers.length ∧
       buildRowRecord headers (rowCells row) ≠ [] ∧
       (buildRowRecord headers (rowCells row)).any (fun kv => valueTruthy kv.2) = true) := by
  unfold rowKeepB
  dsimp only
  by_cases hlen : (rowCells row).length = headers.length
  · simp [hlen]
  · simp [hlen]

/-- Claim C6 (corrected, original refuted): under duplicate headers
(`A`, `A`) a data row with matching cell count and a non-empty cell (`x`)
yields no record, because the code tests the values of the header-keyed
dict, in which the later empty cell overwrote the non-empty one; the only
record extracted from `dupTable` is the header row's own. -/
theorem table_row_nonempty_cell_dropped :
    (rowCells dupDataRow).length = (tableHeaders dupTable).length ∧
    "x" ∈ (rowCells dupDataRow).map getTextStrip ∧
    extract_table_data dupTable = [[("A", Value.s "A")]] := by
  exact ⟨by decide, by decide, by decide⟩

/-- Claim C6 (amended): a scanned table row becomes a record iff its cell
count equals the header count and the header-keyed row dict has at least one
non-empty value (which coincides with "at least one non-empty cell" when the
headers are distinct); the result is exactly those rows' records in order.
In particular a table with header row `Name`/`Price` in a `thead` and two
well-formed `tbody` data rows yields exactly two records with keys `Name`
and `Price`. -/
theorem table_rows_kept_iff (t : HNode) (hne : tableHeaders t ≠ []) :
    extract_table_data t =
      ((tableRows t).filter (rowKeepB (tableHeaders t))).map
        (fun row => buildRowRecord (tableHeaders t) (rowCells row)) ∧
    extract_table_data scenarioTable =
      [[("Name", Value.s "Alice"), ("Price", Value.s "10")],
       [("Name", Value.s "Bob"), ("Price", Value.s "20")]] := by
  constructor
  · unfold extract_table_data
    rw [if_neg hne]
    have hstep : (fun (acc : List Record) (row : HNode) =>
        let cells := rowCells row
        if cells.length = (tableHeaders t).length then
          let rowData := buildRowRecord (tableHeaders t) cells
          if rowData ≠ [] ∧ rowData.any (fun kv => valueTruthy kv.2) then acc ++ [rowData]
          else acc
        else acc) =
        (fun (acc : List Record) (row : HNode) =>
          if rowKeepB (tableHeaders t) row then
            acc ++ [buildRowRecord (tableHeaders t) (rowCells row)]
          else acc) := by
      funext acc row
      dsimp only
      by_cases hlen : (rowCells row).length = (tableHeaders t).length
      · by_cases hkeep : buildRowRecord (tableHeaders t) (rowCells row) ≠ [] ∧
            (buildRowRecord (tableHeaders t) (rowCells row)).any
              (fun kv => valueTruthy kv.2) = true
        · rw [if_pos hlen, if_pos hkeep,
            if_pos ((rowKeepB_iff (tableHeaders t) row).mpr ⟨hlen, hkeep.1, hkeep.2⟩)]
        · rw [if_pos hlen, if_neg hkeep,
            if_neg (fun h => hkeep ⟨((rowKeepB_iff (tableHeaders t) row).mp h).2.1,
              ((rowKeepB_iff (tableHeaders t) row).mp h).2.2⟩)]
      · rw [if_neg hlen,
          if_neg (fun h => hlen ((rowKeepB_iff (tableHeaders t) row).mp h).1)]
    rw [hstep]
    exact foldl_if_filter_map (rowKeepB (tableHeaders t))
      (fun row => buildRowRecord (tableHeaders t) (rowCells row)) (tableRows t) []
  · decide

/-- Witness for C6: the amended characterisation instantiated on the
scenario table. -/
theorem table_rows_kept_iff_witness :
    extract_table_data scenarioTable =
      ((tableRows scenarioTable).filter (rowKeepB (tableHeaders scenarioTable))).map
        (fun row => buildRowRecord (tableHeaders scenarioTable) (rowCells row)) ∧
    extract_table_data scenarioTable =
      [[("Name", Value.s "Alice"), ("Price", Value.s "10")],
       [("Name", Value.s "Bob"), ("Price", Value.s "20")]] :=
  table_rows_kept_iff scenarioTable (by decide)

/-! ## Claim C5 -/

theorem keepSameHost_invariant (env : ScrapeEnv) (currentUrl : String) :
    ∀ (links : List HNode) (acc : List String),
      (∀ l ∈ acc, env.netloc l = env.netloc currentUrl) →
      ∀ l ∈ keepSameHost env currentUrl links acc, env.netloc l = env.netloc currentUrl := by
  intro links
  induction links with
  | nil => intro acc hacc; exact hacc
  | cons link rest ih =>
    intro acc hacc
    unfold keepSameHost
    rw [List.foldl_cons]
    apply ih
    dsimp only
    intro l hl
    split at hl
    · split at hl
      · split at hl
        · rename_i hhost
          rcases List.mem_append.mp hl with hmem | hmem
          · exact hacc l hmem
          · rw [List.mem_singleton.mp hmem]
            exact hhost
        · exact hacc l hl
      · exact hacc l hl
    · exact hacc l hl

theorem paginationSelLoop_invariant (env : ScrapeEnv) (soup : HNode) (currentUrl : String) :
    ∀ (sels : List CssSel) (acc : List String),
      (∀ l ∈ acc, env.netloc l = env.netloc currentUrl) →
      ∀ l ∈ paginationSelLoop env soup currentUrl sels acc,
        env.netloc l = env.netloc currentUrl := by
  intro sels
  induction sels with
  | nil => intro acc hacc; exact hacc
  | cons s rest ih =>
    intro acc hacc
    unfold paginationSelLoop
    dsimp only
    intro l hl
    split at hl
    · exact ih acc hacc l hl
    · have hkept := keepSameHost_invariant env currentUrl
        (paginationAnchors (select soup s)) acc hacc
      split at hl
      · exact hkept l hl
      · exact ih _ hkept l hl

theorem paginationTextLoop_invariant (env : ScrapeEnv) (soup : HNode) (currentUrl : String) :
    ∀ (pats : List String) (acc : List String),
      (∀ l ∈ acc, env.netloc l = env.netloc currentUrl) →
      ∀ l ∈ paginationTextLoop env soup currentUrl pats acc,
        env.netloc l = env.netloc currentUrl := by
  intro pats
  induction pats with
  | nil => intro acc hacc; exact hacc
  | cons p rest ih =>
    intro acc hacc
    unfold paginationTextLoop
    dsimp only
    intro l hl
    split at hl
    · split at hl
      · split at hl
        · split at hl
          · rename_i hhost
            rcases List.mem_append.mp hl with hmem | hmem
            · exact hacc l hmem
            · rw [List.mem_singleton.mp hmem]
              exact hhost
          · exact ih acc hacc l hl
        · exact ih acc hacc l hl
      · exact ih acc hacc l hl
    · exact ih acc hacc l hl

/-- Claim C5 (confirmed): every URL returned by pagination discovery has the
same host (`netloc` of the resolved absolute URL) as the page it was
discovered on, and at most 5 links are returned. -/
theorem pagination_links_same_host (env : ScrapeEnv) (soup : HNode) (currentUrl : String) :
    (∀ link ∈ find_pagination_links env soup currentUrl,
      env.netloc link = env.netloc currentUrl) ∧
    (find_pagination_links env soup currentUrl).length ≤ 5 := by
  constructor
  · intro link hlink
    unfold find_pagination_links at hlink
    have hbase : ∀ l ∈ paginationSelLoop env soup currentUrl paginationSelectors [],
        env.netloc l = env.netloc currentUrl :=
      paginationSelLoop_invariant env soup currentUrl paginationSelectors [] (by simp)
    have hall : ∀ l ∈ (if paginationSelLoop env soup currentUrl paginationSelectors [] = []
          then paginationTextLoop env soup currentUrl nextPatterns []
          else paginationSelLoop env soup currentUrl paginationSelectors []),
        env.netloc l = env.netloc currentUrl := by
      split
      · exact paginationTextLoop_invariant env soup currentUrl nextPatterns [] (by simp)
      · exact hbase
    exact hall link (List.mem_of_mem_take hlink)
  · unfold find_pagination_links
    calc (List.take 5 _).length ≤ 5 := by
          rw [List.length_take]
          exact Nat.min_le_left _ _

/-- Witness for C5: on the concrete pagination page, the discovered link
`/page2` has the current page's host, and the cap holds. -/
theorem pagination_links_same_host_witness :
    envNoFetch.netloc "/page2" = envNoFetch.netloc "http://host.example/p1" ∧
    (find_pagination_links envNoFetch pagPage "http://host.example/p1").length ≤ 5 :=
  ⟨(pagination_links_same_host envNoFetch pagPage "http://host.example/p1").1 "/page2"
      (by decide),
    (pagination_links_same_host envNoFetch pagPage "http://host.example/p1").2⟩

/-! ## Unfolding lemmas for the crawl loop and `scrape_url` -/

theorem crawlLoop_nil (env : ScrapeEnv) (mode : String) (sels : Option (List (String × CssSel)))
    (visited : List String) (results : List Record) (events : List NetEvent)
    (pages maxPages : Nat) :
    crawlLoop env mode sels [] visited results events pages maxPages =
      ⟨events, results, pages⟩ := by
  rw [crawlLoop.eq_def]

theorem crawlLoop_budget_exhausted (env : ScrapeEnv) (mode : String)
    (sels : Option (List (String × CssSel))) (u : String) (rest visited : List String)
    (results : List Record) (events : List NetEvent) (pages maxPages : Nat)
    (h : ¬ pages < maxPages) :
    crawlLoop env mode sels (u :: rest) visited results events pages maxPages =
      ⟨events, results, pages⟩ := by
  rw [crawlLoop.eq_def]
  dsimp only
  rw [dif_neg h]

theorem crawlLoop_skip_visited (env : ScrapeEnv) (mode : String)
    (sels : Option (List (String × CssSel))) (u : String) (rest visited : List String)
    (results : List Record) (events : List NetEvent) (pages maxPages : Nat)
    (h1 : pages < maxPages) (h2 : u ∈ visited) :
    crawlLoop env mode sels (u :: rest) visited results events pages maxPages =
      crawlLoop env mode sels rest visited results events pages maxPages := by
  rw [crawlLoop.eq_def]
  dsimp only
  rw [dif_pos h1, if_pos h2]

theorem crawlLoop_fetch_fail (env : ScrapeEnv) (mode : String)
    (sels : Option (List (String × CssSel))) (u : String) (rest visited : List String)
    (results : List Record) (events : List NetEvent) (pages maxPages : Nat)
    (h1 : pages < maxPages) (h2 : u ∉ visited) (h3 : env.fetch u = none) :
    crawlLoop env mode sels (u :: rest) visited results events pages maxPages =
      crawlLoop env mode sels rest (u :: visited) results
        (events ++ [NetEvent.pageFetch u]) pages maxPages := by
  rw [crawlLoop.eq_def]
  dsimp only
  rw [dif_pos h1, if_neg h2, h3]

theorem crawlLoop_fetch_ok (env : ScrapeEnv) (mode : String)
    (sels : Option (List (String × CssSel))) (u : String) (rest visited : List String)
    (results : List Record) (events : List NetEvent) (pages maxPages : Nat)
    (soup : HNode) (h1 : pages < maxPages) (h2 : u ∉ visited)
    (h3 : env.fetch u = some soup) :
    crawlLoop env mode sels (u :: rest) visited results events pages maxPages =
      (let rs := if mode = "css" ∧ selsTruthy sels then extract_with_selectors soup (sels.getD [])
        else enhanced_auto_extract env.reEnv env.jsonParse soup u
      let results' := if rs ≠ [] then results ++ rs else results
      let urls' :=
        if pages + 1 < maxPages then
          (find_pagination_links env soup u).foldl (fun q link =>
            if link ∉ (u :: visited) ∧ link ∉ q then q ++ [link] else q) rest
        else rest
      crawlLoop env mode sels urls' (u :: visited) results'
        (events ++ [NetEvent.pageFetch u]) (pages + 1) maxPages) := by
  rw [crawlLoop.eq_def]
  dsimp only
  rw [dif_pos h1, if_neg h2, h3]

theorem scrape_url_robots_deny (env : ScrapeEnv) (url mode : String)
    (sels : Option (List (String × CssSel))) (maxPages : Nat)
    (h : (check_robots env url).2 = false) :
    scrape_url env url mode sels maxPages =
      ((check_robots env url).1,
        .error "Scraping failed: Robots.txt disallows scraping this URL") := by
  unfold scrape_url
  rw [h]
  simp

theorem scrape_url_unsafe_deny (env : ScrapeEnv) (url mode : String)
    (sels : Option (List (String × CssSel))) (maxPages : Nat)
    (h1 : (check_robots env url).2 = true) (h2 : is_safe_url env url = false) :
    scrape_url env url mode sels maxPages =
      ((check_robots env url).1,
        .error "Scraping failed: URL points to a private or local IP address") := by
  unfold scrape_url
  rw [h1, h2]
  simp

theorem scrape_url_allowed (env : ScrapeEnv) (url mode : String)
    (sels : Option (List (String × CssSel))) (maxPages : Nat)
    (h1 : (check_robots env url).2 = true) (h2 : is_safe_url env url = true) :
    scrape_url env url mode sels maxPages =
      ((check_robots env url).1 ++
          (crawlLoop env mode sels [url] [] [] [] 0 maxPages).events,
        .ok (crawlLoop env mode sels [url] [] [] [] 0 maxPages).results) := by
  unfold scrape_url
  rw [h1, h2]
  simp

theorem fetchedUrls_append (a b : List NetEvent) :
    fetchedUrls (a ++ b) = fetchedUrls a ++ fetchedUrls b := by
  simp [fetchedUrls]

theorem fetchedUrls_nodup_concat (events : List NetEvent) (u : String)
    (h2 : (fetchedUrls events).Nodup) (hu : u ∉ fetchedUrls events) :
    (fetchedUrls (events ++ [NetEvent.pageFetch u])).Nodup := by
  have hsing : fetchedUrls [NetEvent.pageFetch u] = [u] := rfl
  rw [fetchedUrls_append, hsing, List.nodup_append]
  refine ⟨h2, List.nodup_singleton u, ?_⟩
  intro a ha hb
  rw [List.mem_singleton.mp hb] at ha
  exact hu ha

theorem fetchedUrls_subset_concat (events : List NetEvent) (u : String)
    (visited : List String) (h3 : ∀ x ∈ fetchedUrls events, x ∈ visited) :
    ∀ x ∈ fetchedUrls (events ++ [NetEvent.pageFetch u]), x ∈ u :: visited := by
  have hsing : fetchedUrls [NetEvent.pageFetch u] = [u] := rfl
  intro x hx
  rw [fetchedUrls_append, hsing] at hx
  rcases List.mem_append.mp hx with hold | hnew
  · exact List.mem_cons_of_mem _ (h3 x hold)
  · rw [List.mem_singleton.mp hnew]
    exact List.mem_cons_self _ _

theorem normalized_budget_pos (n : Nat) : 0 < (if n = 0 then 1 else n) := by
  split <;> omega

/-- A job whose robots and address checks pass but whose seed fetch fails
ends failed with the fixed no-data reason, after exactly one attempted page
fetch of the seed. -/
theorem process_job_seed_fetch_fail (env : ScrapeEnv) (job : JobRow)
    (h1 : (check_robots env job.url).2 = true) (h2 : is_safe_url env job.url = true)
    (h3 : env.fetch job.url = none) :
    process_job env job =
      { statusUpdates := [.running, .failed], error := some "No data extracted",
        saved := none,
        events := (check_robots env job.url).1 ++ [NetEvent.pageFetch job.url] } := by
  have hmp := normalized_budget_pos job.maxPages
  have hloop : crawlLoop env job.mode job.selectors [job.url] [] [] [] 0
      (if job.maxPages = 0 then 1 else job.maxPages) =
      ⟨[NetEvent.pageFetch job.url], [], 0⟩ := by
    rw [crawlLoop_fetch_fail env job.mode job.selectors job.url [] [] [] [] 0 _ hmp
      (by simp) h3]
    rw [crawlLoop_nil]
    simp
  unfold process_job
  dsimp only
  rw [scrape_url_allowed env job.url job.mode job.selectors _ h1 h2, hloop]
  dsimp only
  simp

/-! ## Claim C1 -/

theorem is_safe_url_false_of_unsafe (env : ScrapeEnv) (url : String)
    (h : unsafeResolved env url) : is_safe_url env url = false := by
  obtain ⟨host, ip, hh, hne, hres, hclass⟩ := h
  unfold is_safe_url
  rw [hh]
  dsimp only
  rw [if_neg hne, hres]
  dsimp only
  rcases hclass with hc | hc | hc <;> simp [hc]

/-- Claim C1 (corrected, original refuted): when the seed URL's hostname
resolves to a private, loopback or link-local address, a network request for
the origin's robots policy IS issued before the job is denied — the policy
check runs before the address check. -/
theorem robots_fetched_before_unsafe_denial :
    unsafeResolved envLoopback jobLoopback.url ∧
    (process_job envLoopback jobLoopback).events =
      [NetEvent.robotsFetch "http://127.0.0.1/robots.txt"] ∧
    (process_job envLoopback jobLoopback).events ≠ [] := by
  refine ⟨⟨"127.0.0.1", ⟨true, true, false⟩, rfl, by decide, rfl, Or.inl rfl⟩, ?_, ?_⟩
  · decide
  · decide

/-- Claim C1 (amended): a job whose seed hostname resolves to a private,
loopback or link-local address ends failed with a safety-related error
message, with zero page fetches issued and nothing persisted; the only
network request made before the denial is the robots-policy retrieval (and
when the robots policy allows the URL, the error is exactly the
private-address message). -/
theorem unsafe_seed_fails_before_any_page_fetch (env : ScrapeEnv) (job : JobRow)
    (h : unsafeResolved env job.url) :
    (process_job env job).statusUpdates = [JStatus.running, JStatus.failed] ∧
    ((process_job env job).error =
        some "Scraping failed: Robots.txt disallows scraping this URL" ∨
      (process_job env job).error =
        some "Scraping failed: URL points to a private or local IP address") ∧
    fetchedUrls (process_job env job).events = [] ∧
    (process_job env job).saved = none ∧
    ((check_robots env job.url).2 = true →
      (process_job env job).error =
        some "Scraping failed: URL points to a private or local IP address") := by
  have hsafe := is_safe_url_false_of_unsafe env job.url h
  rcases Bool.eq_false_or_eq_true ((check_robots env job.url).2) with hrob | hrob
  · -- robots policy allows: the address check denies
    have hs := scrape_url_unsafe_deny env job.url job.mode job.selectors
      (if job.maxPages = 0 then 1 else job.maxPages) hrob hsafe
    unfold process_job
    dsimp only
    rw [hs]
    dsimp only
    exact ⟨rfl, Or.inr rfl, by simp [check_robots, fetchedUrls], rfl, fun _ => rfl⟩
  · -- robots policy denies first
    have hs := scrape_url_robots_deny env job.url job.mode job.selectors
      (if job.maxPages = 0 then 1 else job.maxPages) hrob
    unfold process_job
    dsimp only
    rw [hs]
    dsimp only
    refine ⟨rfl, Or.inl rfl, ?_, rfl, ?_⟩
    · simp [check_robots, fetchedUrls]
    · intro hc
      rw [hc] at hrob
      cases hrob

/-- Witness for C1 (amended): the loopback job fails with the
private-address message and no page is ever fetched. -/
theorem unsafe_seed_fails_witness :
    (process_job envLoopback jobLoopback).statusUpdates = [JStatus.running, JStatus.failed] ∧
    (process_job envLoopback jobLoopback).error =
      some "Scraping failed: URL points to a private or local IP address" ∧
    fetchedUrls (process_job envLoopback jobLoopback).events = [] := by
  have h := unsafe_seed_fails_before_any_page_fetch envLoopback jobLoopback
    ⟨"127.0.0.1", ⟨true, true, false⟩, rfl, by decide, rfl, Or.inl rfl⟩
  exact ⟨h.1, h.2.2.2.2 rfl, h.2.2.1⟩

/-! ## Claim C2 -/

/-- Claim C2 (corrected, original refuted): a FetchError on the seed URL is
NOT job-fatal — the per-URL handler catches it, the crawl returns normally
with an empty record list, and the job then fails with the no-data message
rather than a fetch error. -/
theorem seed_fetch_error_not_fatal :
    envNoFetch.fetch jobSeed.url = none ∧
    (scrape_url envNoFetch jobSeed.url jobSeed.mode jobSeed.selectors 1).2 = Except.ok [] ∧
    (process_job envNoFetch jobSeed).statusUpdates = [JStatus.running, JStatus.failed] ∧
    (process_job envNoFetch jobSeed).error = some "No data extracted" := by
  have hout := process_job_seed_fetch_fail envNoFetch jobSeed rfl rfl rfl
  refine ⟨rfl, ?_, ?_, ?_⟩
  · rw [scrape_url_allowed envNoFetch jobSeed.url jobSeed.mode jobSeed.selectors 1 rfl rfl]
    rw [crawlLoop_fetch_fail envNoFetch jobSeed.mode jobSeed.selectors jobSeed.url [] [] [] []
      0 1 (by omega) (by simp) rfl]
    rw [crawlLoop_nil]
  · rw [hout]
  · rw [hout]

/-- Claim C2 (amended): a FetchError is recoverable for EVERY frontier URL,
the seed included — the loop records the attempt, skips the URL and
continues with the next frontier entry; when the seed fetch fails, the
frontier is exhausted and the job fails with the fixed `'No data extracted'`
reason instead of a fetch error. -/
theorem fetch_error_always_recoverable :
    (∀ (env : ScrapeEnv) (mode : String) (sels : Option (List (String × CssSel)))
        (u : String) (rest visited : List String) (results : List Record)
        (events : List NetEvent) (pages maxPages : Nat),
      pages < maxPages → u ∉ visited → env.fetch u = none →
      crawlLoop env mode sels (u :: rest) visited results events pages maxPages =
        crawlLoop env mode sels rest (u :: visited) results
          (events ++ [NetEvent.pageFetch u]) pages maxPages) ∧
    (∀ (env : ScrapeEnv) (job : JobRow),
      (check_robots env job.url).2 = true → is_safe_url env job.url = true →
      env.fetch job.url = none →
      (process_job env job).statusUpdates = [JStatus.running, JStatus.failed] ∧
      (process_job env job).error = some "No data extracted") := by
  constructor
  · intro env mode sels u rest visited results events pages maxPages h1 h2 h3
    exact crawlLoop_fetch_fail env mode sels u rest visited results events pages maxPages
      h1 h2 h3
  · intro env job h1 h2 h3
    rw [process_job_seed_fetch_fail env job h1 h2 h3]
    exact ⟨rfl, rfl⟩

/-- Witness for C2 (amended): concrete skip-and-continue step and concrete
no-data failure. -/
theorem fetch_error_always_recoverable_witness :
    crawlLoop envNoFetch "auto" none ["http://host.example/a"] [] [] [] 0 1 =
      crawlLoop envNoFetch "auto" none [] ["http://host.example/a"] []
        [NetEvent.pageFetch "http://host.example/a"] 0 1 ∧
    (process_job envNoFetch jobSeed).error = some "No data extracted" := by
  refine ⟨?_, (fetch_error_always_recoverable.2 envNoFetch jobSeed rfl rfl rfl).2⟩
  have h := fetch_error_always_recoverable.1 envNoFetch "auto" none
    "http://host.example/a" [] [] [] [] 0 1 (by omega) (by simp) rfl
  simpa using h

/-! ## Claim C3 -/

/-- Claim C3 (confirmed): every processed job performs exactly the status
updates `running` then a terminal state (`completed` or `failed`), never
reversing or repeating; `completed` is reached exactly when a non-empty
record list is persisted; and an empty crawl result yields `failed` with the
fixed reason `'No data extracted'`. -/
theorem job_status_transitions (env : ScrapeEnv) (job : JobRow) :
    ((process_job env job).statusUpdates = [JStatus.running, JStatus.completed] ∨
     (process_job env job).statusUpdates = [JStatus.running, JStatus.failed]) ∧
    ((process_job env job).statusUpdates = [JStatus.running, JStatus.completed] ↔
      ∃ recs, (process_job env job).saved = some recs ∧ recs ≠ []) ∧
    ((scrape_url env job.url job.mode job.selectors
        (if job.maxPages = 0 then 1 else job.maxPages)).2 = Except.ok [] →
      (process_job env job).statusUpdates = [JStatus.running, JStatus.failed] ∧
      (process_job env job).error = some "No data extracted") := by
  unfold process_job
  dsimp only
  rcases hs : scrape_url env job.url job.mode job.selectors
      (if job.maxPages = 0 then 1 else job.maxPages) with ⟨evs, r⟩
  cases r with
  | ok results =>
    by_cases hres : results ≠ []
    · refine ⟨Or.inl (by simp [hres]), ?_, ?_⟩
      · constructor
        · intro _
          exact ⟨results, by simp [hres], hres⟩
        · intro _
          simp [hres]
      · intro hok
        injection hok with hinj
        exact absurd hinj hres
    · rw [not_ne_iff] at hres
      subst hres
      refine ⟨Or.inr (by simp), ?_, fun _ => ⟨by simp, by simp⟩⟩
      constructor
      · intro hcomp
        simp at hcomp
      · rintro ⟨recs, hsaved, _⟩
        simp at hsaved
  | error e =>
    refine ⟨Or.inr (by simp), ⟨fun hcomp => ?_, fun hex => ?_⟩, fun hok => ?_⟩
    · simp at hcomp
    · obtain ⟨recs, hsaved, _⟩ := hex
      simp at hsaved
    · simp at hok

/-- Witness for C3: the empty-result clause instantiated on a concrete job
whose seed fetch fails. -/
theorem job_status_transitions_witness :
    (process_job envNoFetch jobSeed).statusUpdates = [JStatus.running, JStatus.failed] ∧
    (process_job envNoFetch jobSeed).error = some "No data extracted" := by
  have h := job_status_transitions envNoFetch jobSeed
  refine h.2.2 ?_
  rw [scrape_url_allowed envNoFetch jobSeed.url jobSeed.mode jobSeed.selectors _ rfl rfl]
  rw [crawlLoop_fetch_fail envNoFetch jobSeed.mode jobSeed.selectors jobSeed.url [] [] [] []
    0 _ (normalized_budget_pos jobSeed.maxPages) (by simp) rfl]
  rw [crawlLoop_nil]

/-! ## Claim C4 -/

theorem crawlLoop_nodup_budget (env : ScrapeEnv) (mode : String)
    (sels : Option (List (String × CssSel))) :
    ∀ (urls visited : List String) (results : List Record) (events : List NetEvent)
      (pages maxPages : Nat),
    pages ≤ maxPages → (fetchedUrls events).Nodup →
    (∀ x ∈ fetchedUrls events, x ∈ visited) →
    (fetchedUrls (crawlLoop env mode sels urls visited results events pages maxPages).events).Nodup ∧
    (crawlLoop env mode sels urls visited results events pages maxPages).pages ≤ maxPages := by
  refine crawlLoop.induct env mode sels
    (fun urls visited results events pages maxPages =>
      pages ≤ maxPages → (fetchedUrls events).Nodup →
      (∀ x ∈ fetchedUrls events, x ∈ visited) →
      (fetchedUrls
          (crawlLoop env mode sels urls visited results events pages maxPages).events).Nodup ∧
      (crawlLoop env mode sels urls visited results events pages maxPages).pages ≤ maxPages)
    ?_ ?_ ?_ ?_ ?_
  · -- frontier exhausted
    intro visited results events pages maxPages h1 h2 _
    rw [crawlLoop_nil]
    exact ⟨h2, h1⟩
  · -- already-visited URL skipped
    intro visited results events pages maxPages u rest hlt hmem ih h1 h2 h3
    rw [crawlLoop_skip_visited env mode sels u rest visited results events pages maxPages
      hlt hmem]
    exact ih h1 h2 h3
  · -- fetch failure: continue with the next entry
    intro visited results events pages maxPages u rest hlt hmem visited' events' hfetch ih
      h1 h2 h3
    rw [crawlLoop_fetch_fail env mode sels u rest visited results events pages maxPages
      hlt hmem hfetch]
    have hu : u ∉ fetchedUrls events := fun hx => hmem (h3 u hx)
    exact ih h1 (fetchedUrls_nodup_concat events u h2 hu)
      (fetchedUrls_subset_concat events u visited h3)
  · -- successful fetch: extract, count a page, maybe enqueue links
    intro visited results events pages maxPages u rest hlt hmem visited' events' soup hfetch
      rs results' pages' urls' ih h1 h2 h3
    rw [crawlLoop_fetch_ok env mode sels u rest visited results events pages maxPages soup
      hlt hmem hfetch]
    dsimp only
    have hu : u ∉ fetchedUrls events := fun hx => hmem (h3 u hx)
    exact ih (by omega) (fetchedUrls_nodup_concat events u h2 hu)
      (fetchedUrls_subset_concat events u visited h3)
  · -- page budget exhausted
    intro visited results events pages maxPages u rest hge h1 h2 _
    rw [crawlLoop_budget_exhausted env mode sels u rest visited results events pages maxPages
      hge]
    exact ⟨h2, h1⟩

/-- Claim C4 (confirmed): within one job the crawl loop never fetches the
same URL twice (every fetched URL is recorded in the visited set first) and
the page counter never exceeds the page budget; with page budget 1 and a
successful seed fetch, exactly one page fetch happens, so an advertised
next-page link is never followed. -/
theorem no_refetch_and_budget_respected :
    (∀ (env : ScrapeEnv) (mode : String) (sels : Option (List (String × CssSel)))
        (urls visited : List String) (results : List Record) (events : List NetEvent)
        (pages maxPages : Nat),
      pages ≤ maxPages → (fetchedUrls events).Nodup →
      (∀ x ∈ fetchedUrls events, x ∈ visited) →
      (fetchedUrls
          (crawlLoop env mode sels urls visited results events pages maxPages).events).Nodup ∧
      (crawlLoop env mode sels urls visited results events pages maxPages).pages ≤ maxPages) ∧
    (∀ (env : ScrapeEnv) (mode : String) (sels : Option (List (String × CssSel)))
        (u : String) (soup : HNode), env.fetch u = some soup →
      (crawlLoop env mode sels [u] [] [] [] 0 1).events = [NetEvent.pageFetch u]) ∧
    (∀ (env : ScrapeEnv) (url mode : String) (sels : Option (List (String × CssSel)))
        (maxPages : Nat),
      (fetchedUrls (scrape_url env url mode sels maxPages).1).Nodup) := by
  refine ⟨?_, ?_, ?_⟩
  · intro env mode sels urls visited results events pages maxPages
    exact crawlLoop_nodup_budget env mode sels urls visited results events pages maxPages
  · intro env mode sels u soup hfetch
    rw [crawlLoop_fetch_ok env mode sels u [] [] [] [] 0 1 soup (by omega) (by simp) hfetch]
    dsimp only
    rw [if_neg (by omega)]
    rw [crawlLoop_nil]
    simp
  · intro env url mode sels maxPages
    unfold scrape_url
    dsimp only
    split
    · simp [check_robots, fetchedUrls]
    · split
      · simp [check_robots, fetchedUrls]
      · rw [fetchedUrls_append]
        have hrob : fetchedUrls (check_robots env url).1 = [] := by
          simp [check_robots, fetchedUrls]
        rw [hrob, List.nil_append]
        exact (crawlLoop_nodup_budget env mode sels [url] [] [] [] 0 maxPages
          (Nat.zero_le _) (by simp [fetchedUrls]) (by simp [fetchedUrls])).1

/-- Witness for C4: the budget-1 scenario on a concrete environment whose
fetch succeeds with a page advertising a pagination link — exactly one page
fetch happens. -/
theorem no_refetch_and_budget_respected_witness :
    (crawlLoop envFetchOk "auto" none ["http://host.example/a"] [] [] [] 0 1).events =
      [NetEvent.pageFetch "http://host.example/a"] :=
  no_refetch_and_budget_respected.2.1 envFetchOk "auto" none "http://host.example/a"
    plainPage rfl

end ProScrape
